import Mathlib

/-!
Verification development for the insurance-pool simulator.

The source program (insurance.py) has two components:

* `Estimator` — a pure calculation taking a claim probability `p`, a
  (real-valued) population `n`, a confidence level `pi`, and optionally a
  fixed payout `P` or a fixed premium `P0`; it derives
  `mu = n*p`, `sigma = sqrt(n*p*(1-p))`, `z = norm.ppf(pi)`,
  `k = ceil(mu + z*sigma)`, then `P0 = k/n*P` (payout given) or
  `P = n/k*P0` (premium given), and `r = P/P0`, `L = n*P`.
* `InsurancePool` — a mutable ledger with operations `issue`, `claim`,
  `expire`.

Floating-point arithmetic is modelled by exact real arithmetic. The one
external numeric primitive, `scipy.stats.norm.ppf` (the inverse standard
normal CDF), is modelled as an explicit function parameter `ppf : ℝ → ℝ`;
theorems that depend on its value carry hypotheses about it (for example
`ppf 0.9999 ≈ 3.719`, or `0 ≤ ppf pi` which holds exactly when `pi ≥ 1/2`).
Division by zero follows Lean's `x / 0 = 0` convention; where the Python
code would produce IEEE `nan`/`inf` from a zero divisor, the theorems only
assert control-flow facts (no exception is raised), never the value of the
divergent field.
-/

namespace Insurance

/-- Python truthiness of an optional float argument: `None` and `0.0` are
falsy, any other float is truthy.  `optVal` returns the carried value with
`None` read as `0`, so that truthiness is exactly `optVal x ≠ 0`. -/
def optVal : Option ℝ → ℝ
  | none => 0
  | some x => x

/-- Discriminates the two constructors of `Except` (whether the modelled
Python call returned normally or raised). -/
def isOk {ε α : Type} : Except ε α → Bool
  | Except.ok _ => true
  | Except.error _ => false

/-- Output record of `Estimator.__calculate`: all derived fields of the
estimator in source order. -/
structure Estimate where
  mu : ℝ
  sigma : ℝ
  z : ℝ
  k : ℝ
  P : ℝ
  P0 : ℝ
  r : ℝ
  L : ℝ

/-- The collateralization requirement computed by the estimator
(insurance.py line 50): `k = ceil(mu + z * sigma)` with `mu = n*p`,
`sigma = sqrt(n*p*(1-p))`, `z = ppf pi`.  Returned as an integer; the
source stores it as an integral float. -/
noncomputable def kOf (ppf : ℝ → ℝ) (p n piv : ℝ) : ℤ :=
  ⌈n * p + ppf piv * Real.sqrt (n * p * (1 - p))⌉

/-- Message of the exception raised by `Estimator.__calculate` when neither
a payout nor a premium is supplied (insurance.py line 57). -/
def needMsg : String := "need either P or P0"

/-- Shallow embedding of `Estimator.__calculate` (insurance.py lines
42-60).  `Popt`/`P0opt` model the keyword arguments `P`/`P0` (default
`None`); branch selection uses Python truthiness (`if self.P:` /
`elif self.P0:`).  A raised exception is an `Except.error`. -/
noncomputable def calculate (ppf : ℝ → ℝ) (p n piv : ℝ)
    (Popt P0opt : Option ℝ) : Except String Estimate :=
  let mu := n * p
  let sigma := Real.sqrt (n * p * (1 - p))
  let z := ppf piv
  let k : ℝ := ((⌈mu + z * sigma⌉ : ℤ) : ℝ)
  if optVal Popt ≠ 0 then
    let P := optVal Popt
    let P0 := k / n * P
    Except.ok { mu := mu, sigma := sigma, z := z, k := k, P := P, P0 := P0,
                r := P / P0, L := n * P }
  else if optVal P0opt ≠ 0 then
    let P0 := optVal P0opt
    let P := n / k * P0
    Except.ok { mu := mu, sigma := sigma, z := z, k := k, P := P, P0 := P0,
                r := P / P0, L := n * P }
  else
    Except.error needMsg

/-- Reads the payout field out of a normally-returned estimate. -/
noncomputable def resultP : Except String Estimate → ℝ
  | Except.ok est => est.P
  | Except.error _ => 0

/-- Reads the premium field out of a normally-returned estimate. -/
noncomputable def resultP0 : Except String Estimate → ℝ
  | Except.ok est => est.P0
  | Except.error _ => 0

/-- Reads the collateralization field out of a normally-returned
estimate. -/
noncomputable def resultK : Except String Estimate → ℝ
  | Except.ok est => est.k
  | Except.error _ => 0

/-- Default confidence level of the estimator (insurance.py line 15,
`pi=.9999`). -/
noncomputable def defaultPi : ℝ := 0.9999

theorem calculate_fixedPayout (ppf : ℝ → ℝ) (p n piv : ℝ)
    (Popt P0opt : Option ℝ) (h : optVal Popt ≠ 0) :
    calculate ppf p n piv Popt P0opt =
      Except.ok
        { mu := n * p, sigma := Real.sqrt (n * p * (1 - p)),
          z := ppf piv, k := ((kOf ppf p n piv : ℤ) : ℝ),
          P := optVal Popt,
          P0 := ((kOf ppf p n piv : ℤ) : ℝ) / n * optVal Popt,
          r := optVal Popt / (((kOf ppf p n piv : ℤ) : ℝ) / n * optVal Popt),
          L := n * optVal Popt } := by
  rw [calculate, if_pos h]
  rfl

theorem calculate_fixedPremium (ppf : ℝ → ℝ) (p n piv : ℝ)
    (Popt P0opt : Option ℝ) (hP : optVal Popt = 0) (h0 : optVal P0opt ≠ 0) :
    calculate ppf p n piv Popt P0opt =
      Except.ok
        { mu := n * p, sigma := Real.sqrt (n * p * (1 - p)),
          z := ppf piv, k := ((kOf ppf p n piv : ℤ) : ℝ),
          P := n / ((kOf ppf p n piv : ℤ) : ℝ) * optVal P0opt,
          P0 := optVal P0opt,
          r := n / ((kOf ppf p n piv : ℤ) : ℝ) * optVal P0opt / optVal P0opt,
          L := n * (n / ((kOf ppf p n piv : ℤ) : ℝ) * optVal P0opt) } := by
  rw [calculate, if_neg (by simp [hP]), if_pos h0]
  rfl

theorem calculate_neither (ppf : ℝ → ℝ) (p n piv : ℝ)
    (Popt P0opt : Option ℝ) (hP : optVal Popt = 0) (h0 : optVal P0opt = 0) :
    calculate ppf p n piv Popt P0opt = Except.error needMsg := by
  rw [calculate, if_neg (by simp [hP]), if_neg (by simp [h0])]

/-- State of `InsurancePool` (insurance.py lines 82-95), fields in the
order they are assigned in `__init__`.  `n`, `claims` and `issued` are
Python ints; the money fields are floats, modelled as reals. -/
structure Pool where
  n : ℤ
  p : ℝ
  P : ℝ
  L : ℝ
  cap : ℝ
  claims : ℤ
  issued : ℤ
  inbound : ℝ

/-- `InsurancePool.__init__(p, P, seed)`: `n = 0`, `L = 0`, `cap = seed`,
all lifetime counters zero. -/
def Pool.init (p P seed : ℝ) : Pool :=
  { n := 0, p := p, P := P, L := 0, cap := seed,
    claims := 0, issued := 0, inbound := 0 }

/-- Premium charged by `issue` (insurance.py lines 103-112): the output
`P0` of the estimator run with population `cap / P` (the capital-implied
effective capacity) and fixed payout `P`, at the default confidence. -/
noncomputable def poolPremium (ppf : ℝ → ℝ) (s : Pool) : ℝ :=
  ((kOf ppf s.p (s.cap / s.P) defaultPi : ℤ) : ℝ) / (s.cap / s.P) * s.P

/-- Shallow embedding of `InsurancePool.issue` (insurance.py lines 97-124):
`n += 1`, `issued += 1`, `eff_k = cap / P` (capital before the premium is
added), premium from `Estimator(p, n=eff_k, P=P)`, then `cap += P0`,
`inbound += P0`, and finally `L = n * P`.  The source also builds a second
estimator `def_est` with population `self.n` solely for the console
record; it raises exactly when the main one does and touches no state, so
it is not modelled.  A raised estimator exception propagates as
`Except.error` (possible only when `P` is falsy). -/
noncomputable def Pool.issue (ppf : ℝ → ℝ) (s : Pool) : Except String Pool :=
  let n1 := s.n + 1
  let issued1 := s.issued + 1
  let effK := s.cap / s.P
  match calculate ppf s.p effK defaultPi (some s.P) none with
  | Except.error e => Except.error e
  | Except.ok est =>
      Except.ok
        { s with n := n1, issued := issued1,
                 cap := s.cap + est.P0, inbound := s.inbound + est.P0,
                 L := ((n1 : ℤ) : ℝ) * s.P }

/-- Message of the exception raised by `InsurancePool.claim` when capital
goes negative (insurance.py line 132). -/
def insolventMsg : String := "* pool is insolvent"

/-- The mutation performed by `InsurancePool.claim` (insurance.py lines
126-130): `n -= 1`, `cap -= P`, `claims += 1`.  Note `L` is not updated.
The mutation is applied before the insolvency check, so it persists even
when the exception is then raised. -/
def Pool.claimStep (s : Pool) : Pool :=
  { s with n := s.n - 1, cap := s.cap - s.P, claims := s.claims + 1 }

/-- Shallow embedding of `InsurancePool.claim` (insurance.py lines
126-132).  The error payload carries the already-mutated state, since the
Python object keeps its mutations when the exception propagates. -/
noncomputable def Pool.claim (s : Pool) : Except (String × Pool) Pool :=
  if s.claimStep.cap < 0 then Except.error (insolventMsg, s.claimStep)
  else Except.ok s.claimStep

/-- Shallow embedding of `InsurancePool.expire` (insurance.py lines
134-137): `n -= 1`, `L -= P`.  No check, no failure path. -/
def Pool.expire (s : Pool) : Pool :=
  { s with n := s.n - 1, L := s.L - s.P }

theorem issue_eq (ppf : ℝ → ℝ) (s : Pool) (hP : s.P ≠ 0) :
    s.issue ppf =
      Except.ok
        { s with n := s.n + 1, issued := s.issued + 1,
                 cap := s.cap + poolPremium ppf s,
                 inbound := s.inbound + poolPremium ppf s,
                 L := ((s.n + 1 : ℤ) : ℝ) * s.P } := by
  rw [Pool.issue, calculate_fixedPayout _ _ _ _ _ _ (by simpa [optVal] using hP)]
  rfl

theorem poolPremium_nonneg (ppf : ℝ → ℝ) (s : Pool) (hp : 0 ≤ s.p)
    (hP : 0 < s.P) (hcap : 0 ≤ s.cap) (hz : 0 ≤ ppf defaultPi) :
    0 ≤ poolPremium ppf s := by
  have heff : 0 ≤ s.cap / s.P := div_nonneg hcap hP.le
  have hk : 0 ≤ kOf ppf s.p (s.cap / s.P) defaultPi := by
    apply Int.ceil_nonneg
    exact add_nonneg (mul_nonneg heff hp)
      (mul_nonneg hz (Real.sqrt_nonneg _))
  exact mul_nonneg (div_nonneg (by exact_mod_cast hk) heff) hP.le

theorem claim_eq_cases (s : Pool) :
    (s.claim = Except.error (insolventMsg, s.claimStep) ↔ s.cap - s.P < 0)
    ∧ (s.claim = Except.ok s.claimStep ↔ 0 ≤ s.cap - s.P) := by
  have hcap : s.claimStep.cap = s.cap - s.P := rfl
  rw [Pool.claim, hcap]
  by_cases hc : s.cap - s.P < 0
  · rw [if_pos hc]
    simp [hc, not_le.mpr hc]
  · rw [if_neg hc]
    simp [hc, not_lt.mp hc]

/-- The three public pool operations, as requested by the driver. -/
inductive Op where
  | issue
  | claim
  | expire

/-- Number of `claim` calls after the last `issue` call of the trace
(accumulator-style; the second argument counts claims already seen since
the most recent issue).  `issue` recomputes `L = n * P` and so resets the
count; `claim` leaves `L` untouched and increments it; `expire` keeps
`L - n*P` constant. -/
def claimsSinceIssue : List Op → ℕ → ℕ
  | [], c => c
  | Op.issue :: ops, _ => claimsSinceIssue ops 0
  | Op.claim :: ops, c => claimsSinceIssue ops (c + 1)
  | Op.expire :: ops, c => claimsSinceIssue ops c

/-- A run of pool operations in which `claim` and `expire` are only
invoked with `n > 0` (the documented caller precondition) and no call
raises: every `issue` and `claim` returns normally. -/
inductive GoodRun (ppf : ℝ → ℝ) : Pool → List Op → Pool → Prop where
  | nil (s : Pool) : GoodRun ppf s [] s
  | issue (s s1 t : Pool) (ops : List Op) :
      s.issue ppf = Except.ok s1 → GoodRun ppf s1 ops t →
      GoodRun ppf s (Op.issue :: ops) t
  | claim (s s1 t : Pool) (ops : List Op) :
      0 < s.n → s.claim = Except.ok s1 → GoodRun ppf s1 ops t →
      GoodRun ppf s (Op.claim :: ops) t
  | expire (s t : Pool) (ops : List Op) :
      0 < s.n → GoodRun ppf s.expire ops t →
      GoodRun ppf s (Op.expire :: ops) t

theorem goodRun_inv (ppf : ℝ → ℝ) (pv Pv : ℝ) (hp : 0 ≤ pv) (hP : 0 < Pv)
    (hz : 0 ≤ ppf defaultPi) {s : Pool} {ops : List Op} {t : Pool}
    (h : GoodRun ppf s ops t) :
    ∀ c : ℕ, s.p = pv → s.P = Pv → 0 ≤ s.n → 0 ≤ s.cap →
      s.L = ((s.n : ℝ) + (c : ℝ)) * Pv →
      t.p = pv ∧ t.P = Pv ∧ 0 ≤ t.n ∧ 0 ≤ t.cap ∧
        t.L = ((t.n : ℝ) + ((claimsSinceIssue ops c : ℕ) : ℝ)) * Pv := by
  induction h with
  | nil s =>
      intro c h1 h2 h3 h4 h5
      exact ⟨h1, h2, h3, h4, by simpa [claimsSinceIssue] using h5⟩
  | issue s s1 t ops hok hrun ih =>
      intro c h1 h2 h3 h4 h5
      rw [issue_eq ppf s (by rw [h2]; exact ne_of_gt hP)] at hok
      have hs1 : s1 =
          { s with n := s.n + 1, issued := s.issued + 1,
                   cap := s.cap + poolPremium ppf s,
                   inbound := s.inbound + poolPremium ppf s,
                   L := ((s.n + 1 : ℤ) : ℝ) * s.P } := by
        exact ((Except.ok.injEq _ _).mp hok).symm
      have hprem : 0 ≤ poolPremium ppf s :=
        poolPremium_nonneg ppf s (h1 ▸ hp) (h2 ▸ hP) h4 hz
      have hres := ih 0 (by rw [hs1]; exact h1) (by rw [hs1]; exact h2)
        (by rw [hs1]; simp; omega)
        (by rw [hs1]; simpa using add_nonneg h4 hprem)
        (by rw [hs1, h2]; push_cast; ring)
      simpa [claimsSinceIssue] using hres
  | claim s s1 t ops hn hok hrun ih =>
      intro c h1 h2 h3 h4 h5
      have hnoerr : ¬ s.claimStep.cap < 0 := by
        intro hlt
        rw [Pool.claim, if_pos hlt] at hok
        cases hok
      have hs1 : s1 = s.claimStep := by
        rw [Pool.claim, if_neg hnoerr] at hok
        exact ((Except.ok.injEq _ _).mp hok).symm
      have hcap1 : 0 ≤ s.cap - s.P := by
        have : s.claimStep.cap = s.cap - s.P := rfl
        rw [this] at hnoerr
        exact not_lt.mp hnoerr
      have hres := ih (c + 1) (by rw [hs1]; exact h1) (by rw [hs1]; exact h2)
        (by rw [hs1]; show 0 ≤ s.n - 1; omega)
        (by rw [hs1]; exact hcap1)
        (by
          rw [hs1]
          show s.L = (((s.n - 1 : ℤ) : ℝ) + ((c + 1 : ℕ) : ℝ)) * Pv
          rw [h5]; push_cast; ring)
      simpa [claimsSinceIssue] using hres
  | expire s t ops hn hrun ih =>
      intro c h1 h2 h3 h4 h5
      have hres := ih c (by exact h1) (by exact h2)
        (by show 0 ≤ s.n - 1; omega)
        (by exact h4)
        (by
          show s.L - s.P = (((s.n - 1 : ℤ) : ℝ) + (c : ℝ)) * Pv
          rw [h5, h2]; push_cast; ring)
      simpa [claimsSinceIssue] using hres

/-- Modelled from the spec's description of `issue()` (section 4.2): first
compute `effective_capacity = cap / P` from the capital held at the start
of the call, obtain the premium `P0` from the estimator invoked with
population equal to that effective capacity and fixed payout `P` at the
default confidence, then apply exactly the effects `n += 1`,
`issued += 1`, `cap += P0`, `inbound += P0`, and recompute `L = n * P`. -/
noncomputable def issueSpec (ppf : ℝ → ℝ) (s : Pool) : Pool :=
  let effectiveCapacity := s.cap / s.P
  let premium :=
    match calculate ppf s.p effectiveCapacity defaultPi (some s.P) none with
    | Except.ok est => est.P0
    | Except.error _ => 0
  { s with n := s.n + 1, issued := s.issued + 1,
           cap := s.cap + premium, inbound := s.inbound + premium,
           L := ((s.n + 1 : ℤ) : ℝ) * s.P }

/-- Claim C4 (confirmed): for every pool in the Active state (valid payout
`P > 0`, capital `cap ≥ 0`), `issue()` always succeeds — it returns
normally, never an error — and its result is exactly the state described
by the spec: effective capacity computed as `cap / P` from the capital
held at the start of the call, premium `P0` obtained from the estimator
with population equal to that effective capacity and fixed payout `P`, and
effects exactly `n += 1`, `issued += 1`, `cap += P0`, `inbound += P0`,
`L = n * P`. -/
theorem issue_matches_spec (ppf : ℝ → ℝ) (s : Pool)
    (hP : 0 < s.P) (hcap : 0 ≤ s.cap) :
    s.issue ppf = Except.ok (issueSpec ppf s) := by
  rw [issue_eq ppf s (ne_of_gt hP), issueSpec,
    calculate_fixedPayout _ _ _ _ _ _ (by simpa [optVal] using ne_of_gt hP)]
  rfl

/-- Claim C4 witness: the theorem applied to a concrete Active pool. -/
theorem issue_matches_spec_witness :
    (0 : ℝ) < (Pool.init (1/2) 100 1600).P ∧
      (Pool.init (1/2) 100 1600).issue (fun _ => 3) =
        Except.ok (issueSpec (fun _ => 3) (Pool.init (1/2) 100 1600)) :=
  ⟨by norm_num [Pool.init],
   issue_matches_spec (fun _ => 3) (Pool.init (1/2) 100 1600)
     (by norm_num [Pool.init]) (by norm_num [Pool.init])⟩

/-- Claim C1 counterexample: on the pool constructed with
`p = 0.05, P = 100, seed = 1000`, the one-call sequence consisting of a
single `claim()` raises nothing (capital stays at `900 ≥ 0`, so no
InsolvencyError), yet afterwards `n = -1 < 0` and
`L = 0 ≠ n * P = -100` — `claim` decrements `n` unconditionally and never
touches `L`.  This refutes the claim that after every call of any
InsolvencyError-free issue/claim/expire sequence `n ≥ 0` and
`L == n * P` hold. -/
theorem pool_invariant_cex :
    (Pool.init 0.05 100 1000).claim =
        Except.ok ((Pool.init 0.05 100 1000).claimStep)
    ∧ ((Pool.init 0.05 100 1000).claimStep).n < 0
    ∧ ((Pool.init 0.05 100 1000).claimStep).L ≠
        (((Pool.init 0.05 100 1000).claimStep).n : ℝ) *
          ((Pool.init 0.05 100 1000).claimStep).P := by
  refine ⟨?_, by norm_num [Pool.init, Pool.claimStep],
    by norm_num [Pool.init, Pool.claimStep]⟩
  rw [Pool.claim, if_neg (by norm_num [Pool.init, Pool.claimStep])]

/-- Claim C1 (amended): for every sequence of issue/claim/expire calls on
a pool constructed with valid `0 < p < 1`, `P > 0`, `seed ≥ 0`, in which
`claim` and `expire` are invoked only when `n > 0` and no call raises
InsolvencyError (`GoodRun`), after every call `n ≥ 0` and `cap ≥ 0` hold,
and `L == (n + c) * P` where `c` is the number of `claim` calls since the
most recent `issue` (so `L == n * P` exactly after each `issue`, while
`claim` leaves `L` unchanged, breaking the exact identity, and `expire`
preserves the discrepancy).  The hypothesis `0 ≤ ppf 0.9999` records that
the inverse normal CDF is nonnegative at the default confidence. -/
theorem pool_invariant (ppf : ℝ → ℝ) (pv Pv seed : ℝ) (hp : 0 < pv)
    (hp1 : pv < 1) (hP : 0 < Pv) (hseed : 0 ≤ seed)
    (hz : 0 ≤ ppf defaultPi) (ops : List Op) (t : Pool)
    (h : GoodRun ppf (Pool.init pv Pv seed) ops t) :
    0 ≤ t.n ∧ 0 ≤ t.cap ∧
      t.L = ((t.n : ℝ) + ((claimsSinceIssue ops 0 : ℕ) : ℝ)) * Pv := by
  have hres := goodRun_inv ppf pv Pv hp.le hP hz h 0 rfl rfl
    (by norm_num [Pool.init]) (by simpa [Pool.init] using hseed)
    (by norm_num [Pool.init])
  exact ⟨hres.2.2.1, hres.2.2.2.1, hres.2.2.2.2⟩

/-- Claim C1 witness: the amended invariant evaluated on the concrete
run `[issue]` from `Pool.init (1/2) 100 1600` with `ppf 0.9999 = 3`:
the estimator sees effective capacity `16`, yields `k = 14` and premium
`87.5`, and the resulting state satisfies the invariant. -/
theorem pool_invariant_witness :
    0 ≤ (⟨1, 1/2, 100, 100, 1687.5, 0, 1, 87.5⟩ : Pool).n
    ∧ 0 ≤ (⟨1, 1/2, 100, 100, 1687.5, 0, 1, 87.5⟩ : Pool).cap
    ∧ (⟨1, 1/2, 100, 100, 1687.5, 0, 1, 87.5⟩ : Pool).L =
        (((⟨1, 1/2, 100, 100, 1687.5, 0, 1, 87.5⟩ : Pool).n : ℝ) +
          ((claimsSinceIssue [Op.issue] 0 : ℕ) : ℝ)) * 100 := by
  have hok : (Pool.init (1/2) 100 1600).issue (fun _ => 3) =
      Except.ok (⟨1, 1/2, 100, 100, 1687.5, 0, 1, 87.5⟩ : Pool) := by
    rw [issue_eq (fun _ => 3) _ (by norm_num [Pool.init])]
    have hk : kOf (fun _ => 3) (Pool.init (1/2) 100 1600).p
        ((Pool.init (1/2) 100 1600).cap / (Pool.init (1/2) 100 1600).P)
        defaultPi = 14 := by
      show (⌈(1600 / 100 : ℝ) * (1/2) +
        3 * Real.sqrt ((1600 / 100) * (1/2) * (1 - 1/2))⌉ : ℤ) = 14
      rw [show ((1600 / 100 : ℝ) * (1/2) * (1 - 1/2)) = 2 ^ 2 by norm_num,
        Real.sqrt_sq (by norm_num)]
      norm_num
    rw [show (⟨1, 1/2, 100, 100, 1687.5, 0, 1, 87.5⟩ : Pool) =
      { Pool.init (1/2) 100 1600 with
          n := (Pool.init (1/2) 100 1600).n + 1,
          issued := (Pool.init (1/2) 100 1600).issued + 1,
          cap := (Pool.init (1/2) 100 1600).cap +
            poolPremium (fun _ => 3) (Pool.init (1/2) 100 1600),
          inbound := (Pool.init (1/2) 100 1600).inbound +
            poolPremium (fun _ => 3) (Pool.init (1/2) 100 1600),
          L := (((Pool.init (1/2) 100 1600).n + 1 : ℤ) : ℝ) *
            (Pool.init (1/2) 100 1600).P } by
        rw [Pool.mk.injEq]
        unfold poolPremium
        rw [hk]
        norm_num [Pool.init]]
  exact pool_invariant (fun _ => 3) (1/2) 100 1600 (by norm_num)
    (by norm_num) (by norm_num) (by norm_num) (by norm_num) [Op.issue] _
    (GoodRun.issue _ _ _ [] hok (GoodRun.nil _))

/-- Claim C2 counterexample: the pool `⟨n=1, p=0.05, P=100, L=100,
cap=50, claims=0, issued=1, inbound=0⟩` becomes insolvent on `claim()`
(capital drops to `-50 < 0`, the InsolvencyError is raised), but the pool
is not in a terminal state: the subsequent `expire()` call returns
normally (its type admits no failure) and mutates the state, changing `n`
from `0` to `-1` — refuting that every subsequent call fails rather than
mutating state. -/
theorem insolvency_terminal_cex :
    isOk ((⟨1, 0.05, 100, 100, 50, 0, 1, 0⟩ : Pool).claim) = false
    ∧ ((⟨1, 0.05, 100, 100, 50, 0, 1, 0⟩ : Pool).claimStep).n = 0
    ∧ ((⟨1, 0.05, 100, 100, 50, 0, 1, 0⟩ : Pool).claimStep).expire.n = -1
    ∧ ((⟨1, 0.05, 100, 100, 50, 0, 1, 0⟩ : Pool).claimStep).expire ≠
        (⟨1, 0.05, 100, 100, 50, 0, 1, 0⟩ : Pool).claimStep := by
  refine ⟨?_, by norm_num [Pool.claimStep],
    by norm_num [Pool.claimStep, Pool.expire],
    by simp [Pool.claimStep, Pool.expire, Pool.mk.injEq]⟩
  rw [Pool.claim, if_pos (by norm_num [Pool.claimStep])]
  rfl

/-- Claim C2 (amended): `claim()` with precondition `n > 0` raises
InsolvencyError exactly when deducting the payout `P` from `cap` makes
`cap` negative, and the failing call has already applied its mutation
(`n -= 1`, `cap -= P`, `claims += 1`, carried in the error); but the pool
has no terminal Insolvent state — a subsequent `expire()` (for instance)
is not rejected and mutates the state normally.  The reference relies on
the uncaught exception aborting the process. -/
theorem claim_insolvency (s : Pool) (h : 0 < s.n) :
    (s.claim = Except.error (insolventMsg, s.claimStep) ↔ s.cap - s.P < 0)
    ∧ (s.claim = Except.ok s.claimStep ↔ 0 ≤ s.cap - s.P)
    ∧ s.claimStep.expire =
        { s.claimStep with n := s.claimStep.n - 1,
                           L := s.claimStep.L - s.P } := by
  exact ⟨(claim_eq_cases s).1, (claim_eq_cases s).2, rfl⟩

/-- Claim C2 witness: the amended theorem at a concrete pool with
`n = 1`, `cap = 50 < P = 100`, whose `claim` is insolvent. -/
theorem claim_insolvency_witness :
    ((⟨1, 0.05, 100, 100, 50, 0, 1, 0⟩ : Pool).claim =
        Except.error (insolventMsg,
          (⟨1, 0.05, 100, 100, 50, 0, 1, 0⟩ : Pool).claimStep) ↔
      (⟨1, 0.05, 100, 100, 50, 0, 1, 0⟩ : Pool).cap -
        (⟨1, 0.05, 100, 100, 50, 0, 1, 0⟩ : Pool).P < 0) ∧
    (0 : ℤ) < (⟨1, 0.05, 100, 100, 50, 0, 1, 0⟩ : Pool).n :=
  ⟨(claim_insolvency (⟨1, 0.05, 100, 100, 50, 0, 1, 0⟩ : Pool)
      (by norm_num)).1,
   by norm_num⟩

/-- Claim C10 counterexample: calling `claim()` on a pool with `n = 0`
and `cap = 50 < P = 100` does fail — the unconditional deduction drives
`cap` to `-50` and the InsolvencyError is raised — refuting the literal
statement that calling `claim()` on a pool with `n = 0` does not fail. -/
theorem no_n_check_cex :
    (⟨0, 0.05, 100, 0, 50, 0, 0, 0⟩ : Pool).n = 0
    ∧ isOk ((⟨0, 0.05, 100, 0, 50, 0, 0, 0⟩ : Pool).claim) = false := by
  refine ⟨rfl, ?_⟩
  rw [Pool.claim, if_pos (by norm_num [Pool.claimStep])]
  rfl

/-- Claim C10 (amended): neither `claim()` nor `expire()` checks `n`:
called on a pool with `n = 0`, `expire` always returns normally with `n`
decremented to `-1` and `L` reduced by `P`, and `claim` applies its
mutation unconditionally (`n = -1`, `cap -= P`, `claims += 1`), raising
only via the insolvency check `cap - P < 0`, which does not involve `n`.
So no operation of the pool enforces `n ≥ 0`; the bound is maintained
only by the caller respecting the `n > 0` precondition. -/
theorem no_n_check (s : Pool) (h : s.n = 0) :
    s.expire = { s with n := -1, L := s.L - s.P }
    ∧ s.claimStep = { s with n := -1, cap := s.cap - s.P,
                             claims := s.claims + 1 }
    ∧ (s.claim = Except.error (insolventMsg, s.claimStep) ↔
        s.cap - s.P < 0)
    ∧ (s.claim = Except.ok s.claimStep ↔ 0 ≤ s.cap - s.P) := by
  refine ⟨?_, ?_, (claim_eq_cases s).1, (claim_eq_cases s).2⟩
  · rw [Pool.expire, h]; norm_num [Pool.mk.injEq]
  · rw [Pool.claimStep, h]; norm_num [Pool.mk.injEq]

/-- Claim C10 witness: the amended theorem at the freshly constructed
pool `Pool.init 0.05 100 1000` (which has `n = 0`); with `cap = 1000 ≥ P`
its `claim` returns normally while still decrementing `n` to `-1`. -/
theorem no_n_check_witness :
    (Pool.init 0.05 100 1000).expire =
      { Pool.init 0.05 100 1000 with
          n := -1,
          L := (Pool.init 0.05 100 1000).L - (Pool.init 0.05 100 1000).P }
    ∧ (Pool.init 0.05 100 1000).claimStep =
      { Pool.init 0.05 100 1000 with
          n := -1,
          cap := (Pool.init 0.05 100 1000).cap -
            (Pool.init 0.05 100 1000).P,
          claims := (Pool.init 0.05 100 1000).claims + 1 }
    ∧ ((Pool.init 0.05 100 1000).claim =
        Except.error (insolventMsg, (Pool.init 0.05 100 1000).claimStep) ↔
        (Pool.init 0.05 100 1000).cap - (Pool.init 0.05 100 1000).P < 0)
    ∧ ((Pool.init 0.05 100 1000).claim =
        Except.ok ((Pool.init 0.05 100 1000).claimStep) ↔
        0 ≤ (Pool.init 0.05 100 1000).cap -
          (Pool.init 0.05 100 1000).P) :=
  no_n_check (Pool.init 0.05 100 1000) rfl

/-- Claim C3 (confirmed): for `p = 0.05`, `n = 10`, `pi = 0.9999` with
fixed payout `P = 100`, the estimator returns
`mu = 0.5`, `sigma = sqrt(10*0.05*0.95)`, `z = ppf 0.9999`, `k = 4` and
premium `P0 = (4/10)*100 = 40` (and `r = 5/2`, `L = 1000`).  The
hypothesis pins `ppf 0.9999` to the claim's `z ≈ 3.719` (the true value
of the inverse standard normal CDF at `0.9999` is `3.71901...`); any `z`
within `0.005` of `3.719` gives `k = ceil(0.5 + z*0.6892...) = 4`. -/
theorem estimator_concrete (ppf : ℝ → ℝ)
    (hz : |ppf 0.9999 - 3.719| ≤ 1 / 200) :
    calculate ppf 0.05 10 0.9999 (some 100) none =
      Except.ok
        { mu := 0.5, sigma := Real.sqrt (10 * 0.05 * 0.95),
          z := ppf 0.9999, k := 4, P := 100, P0 := 40, r := 5 / 2,
          L := 1000 } := by
  have hz1 : (3.714 : ℝ) ≤ ppf 0.9999 := by
    have h := abs_le.mp hz
    linarith [h.1]
  have hz2 : ppf 0.9999 ≤ 3.724 := by
    have h := abs_le.mp hz
    linarith [h.2]
  have hs0 : 0 ≤ Real.sqrt 0.475 := Real.sqrt_nonneg _
  have hs2 : Real.sqrt 0.475 ^ 2 = 0.475 := Real.sq_sqrt (by norm_num)
  have hsl : (0.689 : ℝ) < Real.sqrt 0.475 := by nlinarith
  have hsu : Real.sqrt 0.475 ≤ 0.69 := by nlinarith
  have hk : kOf ppf 0.05 10 0.9999 = 4 := by
    rw [kOf, show (10 * 0.05 * (1 - 0.05) : ℝ) = 0.475 by norm_num,
      Int.ceil_eq_iff]
    constructor
    · push_cast
      nlinarith [mul_nonneg (by linarith : (0:ℝ) ≤ ppf 0.9999 - 3.714)
        (by linarith : (0:ℝ) ≤ Real.sqrt 0.475 - 0.689)]
    · push_cast
      nlinarith [mul_nonneg (by linarith : (0:ℝ) ≤ 3.724 - ppf 0.9999)
        (by linarith : (0:ℝ) ≤ 0.69 - Real.sqrt 0.475)]
  rw [calculate_fixedPayout _ _ _ _ _ _ (by norm_num [optVal]), hk]
  rw [Except.ok.injEq, Estimate.mk.injEq]
  refine ⟨by norm_num, ?_, rfl, by norm_num, by norm_num [optVal],
    by norm_num [optVal], by norm_num [optVal], by norm_num [optVal]⟩
  rw [show (10 * 0.05 * (1 - 0.05) : ℝ) = 10 * 0.05 * 0.95 by norm_num]

/-- Claim C3 witness: the theorem applied at a concrete inverse-CDF stub
taking exactly the value `3.719` at `0.9999`. -/
theorem estimator_concrete_witness :
    |(fun _ : ℝ => (3.719 : ℝ)) 0.9999 - 3.719| ≤ 1 / 200 ∧
      calculate (fun _ : ℝ => (3.719 : ℝ)) 0.05 10 0.9999 (some 100) none =
        Except.ok
          { mu := 0.5, sigma := Real.sqrt (10 * 0.05 * 0.95),
            z := (fun _ : ℝ => (3.719 : ℝ)) 0.9999, k := 4, P := 100,
            P0 := 40, r := 5 / 2, L := 1000 } :=
  ⟨by norm_num, estimator_concrete (fun _ => 3.719) (by norm_num)⟩

/-- Claim C5 counterexample: supplying both a payout (`P = 100`) and a
premium (`P0 = 7`) is accepted silently — the call returns normally (no
ConfigurationError) and the supplied premium is overwritten by the value
`k/n * P = 5/4 * 100 = 125` derived from the payout branch (computed here
with `p = 1/2`, `n = 4` and inverse-CDF value `3`). -/
theorem config_error_cex :
    isOk (calculate (fun _ : ℝ => (3 : ℝ)) (1/2) 4 0.9999
        (some 100) (some 7)) = true
    ∧ resultP0 (calculate (fun _ : ℝ => (3 : ℝ)) (1/2) 4 0.9999
        (some 100) (some 7)) = 125 := by
  rw [calculate_fixedPayout _ _ _ _ _ _ (by norm_num [optVal])]
  have hk : kOf (fun _ : ℝ => (3 : ℝ)) (1/2) 4 0.9999 = 5 := by
    rw [kOf, show (4 * (1/2 : ℝ) * (1 - 1/2)) = 1 by norm_num,
      Real.sqrt_one]
    norm_num
  refine ⟨rfl, ?_⟩
  rw [resultP0, hk]
  norm_num [optVal]

/-- Claim C5 (amended): the estimator raises (ConfigurationError) exactly
when neither a truthy (nonzero) payout nor a truthy premium is supplied;
supplying both is not an error — the payout branch silently takes
precedence, so the result is identical to the call with the premium
argument dropped (the supplied `P0` is overwritten). -/
theorem config_error_iff (ppf : ℝ → ℝ) (p n piv : ℝ)
    (Popt P0opt : Option ℝ) :
    (isOk (calculate ppf p n piv Popt P0opt) = false ↔
      optVal Popt = 0 ∧ optVal P0opt = 0)
    ∧ (optVal Popt ≠ 0 →
      calculate ppf p n piv Popt P0opt = calculate ppf p n piv Popt none) := by
  constructor
  · by_cases h1 : optVal Popt = 0
    · by_cases h2 : optVal P0opt = 0
      · rw [calculate_neither ppf p n piv Popt P0opt h1 h2]
        simp [isOk, h1, h2]
      · rw [calculate_fixedPremium ppf p n piv Popt P0opt h1 h2]
        simp [isOk, h2]
    · rw [calculate_fixedPayout ppf p n piv Popt P0opt h1]
      simp [isOk, h1]
  · intro h
    rw [calculate_fixedPayout ppf p n piv Popt P0opt h,
      calculate_fixedPayout ppf p n piv Popt none h]

/-- Claim C5 witness: the amended theorem's both-supplied case at concrete
inputs — with `P = 100` truthy, the premium argument `P0 = 7` is
ignored. -/
theorem config_error_iff_witness :
    optVal (some (100 : ℝ)) ≠ 0 ∧
      calculate (fun _ : ℝ => (3 : ℝ)) (1/2) 4 0.9999 (some 100) (some 7) =
        calculate (fun _ : ℝ => (3 : ℝ)) (1/2) 4 0.9999 (some 100) none :=
  ⟨by norm_num [optVal],
   (config_error_iff (fun _ : ℝ => (3 : ℝ)) (1/2) 4 0.9999
     (some 100) (some 7)).2 (by norm_num [optVal])⟩

/-- Claim C6 counterexample: the estimator invoked with population
`n = 0` (valid `p = 0.05`, `pi = 0.9999`, fixed payout `P = 100`) does
not fail: it returns a result (in the reference the unguarded division
`k/n = 0/0` merely produces an IEEE non-finite value and a runtime
warning, not an exception), refuting the claim that it fails with
DomainError rather than returning a result. -/
theorem domain_error_cex :
    isOk (calculate (fun _ : ℝ => (3.719 : ℝ)) 0.05 0 0.9999
      (some 100) none) = true := by
  rw [calculate_fixedPayout _ _ _ _ _ _ (by norm_num [optVal])]
  rfl

/-- Claim C6 (amended): the estimator never raises for degenerate
populations — with a truthy payout it returns normally even when `n = 0`
(in which case `mu = 0`, `sigma = 0` and the computed `k` is `0`, so the
premium derivation divides zero by zero), and with a truthy premium it
returns normally for every population, even when the computed `k = 0`
makes `P = n/k * P0` a division by zero.  The reference leaves these
divisions unguarded (IEEE `nan`/`inf`), so no DomainError exists. -/
theorem domain_unguarded (ppf : ℝ → ℝ) (p n piv Pv P0v : ℝ)
    (hP : Pv ≠ 0) (hP0 : P0v ≠ 0) :
    isOk (calculate ppf p 0 piv (some Pv) none) = true
    ∧ kOf ppf p 0 piv = 0
    ∧ isOk (calculate ppf p n piv none (some P0v)) = true := by
  refine ⟨?_, ?_, ?_⟩
  · rw [calculate_fixedPayout _ _ _ _ _ _ (by simpa [optVal] using hP)]
    rfl
  · rw [kOf, show ((0 : ℝ) * p * (1 - p)) = 0 by ring, Real.sqrt_zero]
    norm_num
  · rw [calculate_fixedPremium _ _ _ _ _ _ (by norm_num [optVal])
      (by simpa [optVal] using hP0)]
    rfl

/-- Claim C6 witness: the amended theorem at concrete inputs
(`p = 0.05`, `pi = 0.9999`, payout `100`, premium `40`, population `7`
for the premium branch). -/
theorem domain_unguarded_witness :
    isOk (calculate (fun _ : ℝ => (3.719 : ℝ)) 0.05 0 0.9999
        (some 100) none) = true
    ∧ kOf (fun _ : ℝ => (3.719 : ℝ)) 0.05 0 0.9999 = 0
    ∧ isOk (calculate (fun _ : ℝ => (3.719 : ℝ)) 0.05 7 0.9999
        none (some 40)) = true :=
  domain_unguarded (fun _ : ℝ => (3.719 : ℝ)) 0.05 7 0.9999 100 40
    (by norm_num) (by norm_num)

/-- Claim C7 (confirmed): for valid `p ∈ (0,1)`, `n > 0`, `pi ∈ (0,1)`,
`P > 0` with computed `k > 0`, running the estimator with fixed payout
`P` to obtain the premium `P0 = k/n * P`, then running it again with the
same `p`, `n`, `pi` and fixed premium `P0`, reproduces the payout
`P = n/k * P0` exactly — in particular within `1e-9` relative
tolerance. -/
theorem roundtrip (ppf : ℝ → ℝ) (p n piv P : ℝ) (hp : 0 < p) (hp1 : p < 1)
    (hn : 0 < n) (hpi : 0 < piv) (hpi1 : piv < 1) (hP : 0 < P)
    (hk : 0 < kOf ppf p n piv) :
    resultP (calculate ppf p n piv none
        (some (resultP0 (calculate ppf p n piv (some P) none)))) = P
    ∧ |resultP (calculate ppf p n piv none
        (some (resultP0 (calculate ppf p n piv (some P) none)))) - P| ≤
        1e-9 * |P| := by
  have hkR : (0 : ℝ) < ((kOf ppf p n piv : ℤ) : ℝ) := by exact_mod_cast hk
  have hP0 : (0 : ℝ) < ((kOf ppf p n piv : ℤ) : ℝ) / n * P :=
    mul_pos (div_pos hkR hn) hP
  have h1 : resultP0 (calculate ppf p n piv (some P) none) =
      ((kOf ppf p n piv : ℤ) : ℝ) / n * P := by
    rw [calculate_fixedPayout _ _ _ _ _ _
      (by simpa [optVal] using ne_of_gt hP), resultP0]
    simp [optVal]
  have h2 : resultP (calculate ppf p n piv none
      (some (((kOf ppf p n piv : ℤ) : ℝ) / n * P))) = P := by
    rw [calculate_fixedPremium _ _ _ _ _ _ (by norm_num [optVal])
      (by simpa [optVal] using ne_of_gt hP0), resultP]
    show n / ((kOf ppf p n piv : ℤ) : ℝ) *
      optVal (some (((kOf ppf p n piv : ℤ) : ℝ) / n * P)) = P
    rw [optVal]
    field_simp
    ring
  rw [h1, h2]
  refine ⟨rfl, ?_⟩
  rw [sub_self, abs_zero]
  positivity

/-- Claim C7 witness: the round trip at `p = 1/2`, `n = 4`,
`pi = 0.9999` (inverse-CDF value `3`), `P = 100`, where `k = 5`. -/
theorem roundtrip_witness :
    0 < kOf (fun _ : ℝ => (3 : ℝ)) (1/2) 4 0.9999 ∧
      resultP (calculate (fun _ : ℝ => (3 : ℝ)) (1/2) 4 0.9999 none
        (some (resultP0 (calculate (fun _ : ℝ => (3 : ℝ)) (1/2) 4 0.9999
          (some 100) none)))) = 100 := by
  have hk : kOf (fun _ : ℝ => (3 : ℝ)) (1/2) 4 0.9999 = 5 := by
    rw [kOf, show (4 * (1/2 : ℝ) * (1 - 1/2)) = 1 by norm_num,
      Real.sqrt_one]
    norm_num
  exact ⟨by rw [hk]; norm_num,
    (roundtrip (fun _ : ℝ => (3 : ℝ)) (1/2) 4 0.9999 100 (by norm_num)
      (by norm_num) (by norm_num) (by norm_num) (by norm_num) (by norm_num)
      (by rw [hk]; norm_num)).1⟩

/-- Claim C8 counterexample: at `p = 1/2`, `n = 1`, `P = 100` and a
confidence `pi = 0.0013499` whose inverse-CDF value is `-3` (the inverse
standard normal CDF takes the value `-3` at `pi = Phi(-3) ≈ 0.0013499`,
which lies in `(0,1)`), the computed `k = ceil(1/2 - 3*(1/2)) = -1` is
strictly below `ceil(n*p) = ceil(1/2) = 1`, refuting `k ≥ ceil(n*p)`. -/
theorem k_formula_cex :
    resultK (calculate (fun _ : ℝ => (-3 : ℝ)) (1/2) 1 0.0013499
        (some 100) none) = -1
    ∧ (⌈((1 : ℝ) * (1/2))⌉ : ℤ) = 1 := by
  have hk : kOf (fun _ : ℝ => (-3 : ℝ)) (1/2) 1 0.0013499 = -1 := by
    rw [kOf, show (1 * (1/2 : ℝ) * (1 - 1/2)) = (1/2) ^ 2 by norm_num,
      Real.sqrt_sq (by norm_num), Int.ceil_eq_iff]
    norm_num
  constructor
  · rw [calculate_fixedPayout _ _ _ _ _ _ (by norm_num [optVal]),
      resultK, hk]
    norm_num
  · rw [Int.ceil_eq_iff]
    norm_num

/-- Claim C8 (amended): for all valid `p ∈ (0,1)`, `n > 0`, `pi ∈ (0,1)`,
`P > 0`, the computed `k` equals `ceil(n*p + ppf(pi)*sqrt(n*p*(1-p)))`
and is an integer by construction; the lower bound `k ≥ ceil(n*p)` holds
provided the inverse-CDF value `ppf(pi)` is nonnegative, i.e. `pi ≥ 1/2`
(true in particular for the default `pi = 0.9999`); for `pi < 1/2` it can
fail. -/
theorem k_formula (ppf : ℝ → ℝ) (p n piv P : ℝ) (hp : 0 < p) (hp1 : p < 1)
    (hn : 0 < n) (hpi : 0 < piv) (hpi1 : piv < 1) (hP : 0 < P)
    (hz : 0 ≤ ppf piv) :
    resultK (calculate ppf p n piv (some P) none) =
      ((kOf ppf p n piv : ℤ) : ℝ)
    ∧ ⌈n * p⌉ ≤ kOf ppf p n piv := by
  constructor
  · rw [calculate_fixedPayout _ _ _ _ _ _
      (by simpa [optVal] using ne_of_gt hP), resultK]
  · exact Int.ceil_mono
      (le_add_of_nonneg_right (mul_nonneg hz (Real.sqrt_nonneg _)))

/-- Claim C8 witness: the amended theorem at `p = 1/2`, `n = 4`,
`pi = 0.9999` with inverse-CDF value `3`, `P = 100`, where `k = 5` and
`ceil(n*p) = 2`. -/
theorem k_formula_witness :
    (0 : ℝ) ≤ (fun _ : ℝ => (3 : ℝ)) 0.9999 ∧
      resultK (calculate (fun _ : ℝ => (3 : ℝ)) (1/2) 4 0.9999
          (some 100) none) =
        ((kOf (fun _ : ℝ => (3 : ℝ)) (1/2) 4 0.9999 : ℤ) : ℝ) ∧
      ⌈(4 : ℝ) * (1/2)⌉ ≤ kOf (fun _ : ℝ => (3 : ℝ)) (1/2) 4 0.9999 :=
  ⟨by norm_num,
   (k_formula (fun _ : ℝ => (3 : ℝ)) (1/2) 4 0.9999 100 (by norm_num)
     (by norm_num) (by norm_num) (by norm_num) (by norm_num) (by norm_num)
     (by norm_num)).1,
   (k_formula (fun _ : ℝ => (3 : ℝ)) (1/2) 4 0.9999 100 (by norm_num)
     (by norm_num) (by norm_num) (by norm_num) (by norm_num) (by norm_num)
     (by norm_num)).2⟩

/-- Claim C9 counterexample: at fixed `p = 1/2` and a confidence
`pi = 0.0013499` whose inverse-CDF value is `-3` (`Phi(-3) ≈ 0.0013499`
lies in `(0,1)`), the collateralization requirement decreases as the
population grows from `n1 = 1/4` to `n2 = 1`:
`k(1/4) = ceil(1/8 - 3/4) = 0` but `k(1) = ceil(1/2 - 3/2) = -1`,
refuting that `k(n)` is non-decreasing in `n` for every `pi ∈ (0,1)`. -/
theorem k_monotone_cex :
    kOf (fun _ : ℝ => (-3 : ℝ)) (1/2) 1 0.0013499 <
      kOf (fun _ : ℝ => (-3 : ℝ)) (1/2) (1/4) 0.0013499
    ∧ (0 : ℝ) < 1/4 ∧ (1/4 : ℝ) ≤ 1 := by
  have h1 : kOf (fun _ : ℝ => (-3 : ℝ)) (1/2) 1 0.0013499 = -1 := by
    rw [kOf, show (1 * (1/2 : ℝ) * (1 - 1/2)) = (1/2) ^ 2 by norm_num,
      Real.sqrt_sq (by norm_num), Int.ceil_eq_iff]
    norm_num
  have h2 : kOf (fun _ : ℝ => (-3 : ℝ)) (1/2) (1/4) 0.0013499 = 0 := by
    rw [kOf, show ((1/4) * (1/2 : ℝ) * (1 - 1/2)) = (1/4) ^ 2 by norm_num,
      Real.sqrt_sq (by norm_num), Int.ceil_eq_iff]
    norm_num
  refine ⟨?_, by norm_num, by norm_num⟩
  rw [h1, h2]
  norm_num

/-- Claim C9 (amended): for fixed `p ∈ (0,1)` and fixed confidence `pi`
with nonnegative inverse-CDF value (`pi ≥ 1/2`, true in particular for
the default `0.9999`), the collateralization requirement `k(n)` is
non-decreasing in the population: `0 < n1 ≤ n2` implies
`k(n1) ≤ k(n2)`; for `pi < 1/2` it can decrease. -/
theorem k_monotone (ppf : ℝ → ℝ) (p piv n₁ n₂ : ℝ) (hp : 0 < p)
    (hp1 : p < 1) (hz : 0 ≤ ppf piv) (hn₁ : 0 < n₁) (h12 : n₁ ≤ n₂) :
    kOf ppf p n₁ piv ≤ kOf ppf p n₂ piv := by
  apply Int.ceil_mono
  have hbase : n₁ * p ≤ n₂ * p :=
    mul_le_mul_of_nonneg_right h12 hp.le
  have hrad : n₁ * p * (1 - p) ≤ n₂ * p * (1 - p) :=
    mul_le_mul_of_nonneg_right hbase (by linarith)
  exact add_le_add hbase
    (mul_le_mul_of_nonneg_left (Real.sqrt_le_sqrt hrad) hz)

/-- Claim C9 witness: the amended monotonicity at `p = 1/2`,
`pi = 0.9999` with inverse-CDF value `3`, `n1 = 1 ≤ n2 = 4`. -/
theorem k_monotone_witness :
    (0 : ℝ) < 1 ∧ ((1 : ℝ) ≤ 4) ∧
      kOf (fun _ : ℝ => (3 : ℝ)) (1/2) 1 0.9999 ≤
        kOf (fun _ : ℝ => (3 : ℝ)) (1/2) 4 0.9999 :=
  ⟨by norm_num, by norm_num,
   k_monotone (fun _ : ℝ => (3 : ℝ)) (1/2) 0.9999 1 4 (by norm_num)
     (by norm_num) (by norm_num) (by norm_num) (by norm_num)⟩

end Insurance
